import Mathlib

/-!
Verification of the discount-wheel engine of the IntelcobroWebIA repository.

Shallow embedding of:
 * `src/domain/enums/WheelSection.ts` (`WheelSection`, `WHEEL_SECTIONS_CONFIG`,
   `getSectionConfig`),
 * `src/domain/value-objects/DiscountPercentage.ts`,
 * `src/domain/entities/WheelResult.ts`,
 * `src/shared/utils/RandomGenerator.ts` (`weightedRandom`,
   `generateWheelSection`, `generateWheelAngle`, `generateSpinDuration`),
 * `src/application/use-cases/wheel/SpinWheelUseCase.ts`.

Conventions of the embedding:
 * JavaScript numbers are modelled as `ℚ` (exact arithmetic); integer counters
   and epoch-millisecond instants as `Int`/`Nat`.
 * `Math.random()` draws and the other ambient sources of nondeterminism
   (current time, generated ids, the runtime's UTC offset) are passed
   explicitly as arguments.
 * Methods that `throw` are modelled with `Except`/`Option`.
 * `Date` values are epoch milliseconds.  The runtime's timezone enters only
   through `setDate`/`setHours`, which operate on local time; the fixed
   offset (ms east of UTC) is the `tzOffsetMs` argument.
-/

deriving instance DecidableEq for Except

namespace Intelcobro

/-- `WheelSection`, from src/domain/enums/WheelSection.ts. -/
inductive WheelSection where
  | discount5
  | discount10
  | discount15
  | discount20
  | discount25
  | discount30
  | discount50
  | tryAgain
deriving DecidableEq

/-- One row of `WHEEL_SECTIONS_CONFIG` (section, label, discountPercentage,
probability, color, textColor). -/
structure WheelSectionConfig where
  «section» : WheelSection
  label : String
  discountPercentage : ℚ
  probability : ℚ
  color : String
  textColor : String
deriving DecidableEq

/-- `WHEEL_SECTIONS_CONFIG`, from src/domain/enums/WheelSection.ts. -/
def WHEEL_SECTIONS_CONFIG : List WheelSectionConfig :=
  [ { «section» := .discount5, label := "5% OFF", discountPercentage := 5,
      probability := 25, color := "#FF6B6B", textColor := "#FFFFFF" },
    { «section» := .discount10, label := "10% OFF", discountPercentage := 10,
      probability := 20, color := "#4ECDC4", textColor := "#FFFFFF" },
    { «section» := .discount15, label := "15% OFF", discountPercentage := 15,
      probability := 15, color := "#45B7D1", textColor := "#FFFFFF" },
    { «section» := .discount20, label := "20% OFF", discountPercentage := 20,
      probability := 15, color := "#96CEB4", textColor := "#FFFFFF" },
    { «section» := .discount25, label := "25% OFF", discountPercentage := 25,
      probability := 10, color := "#FFEAA7", textColor := "#2D3436" },
    { «section» := .discount30, label := "30% OFF", discountPercentage := 30,
      probability := 8, color := "#DDA0DD", textColor := "#FFFFFF" },
    { «section» := .discount50, label := "50% OFF", discountPercentage := 50,
      probability := 2, color := "#FFD700", textColor := "#2D3436" },
    { «section» := .tryAgain, label := "Try Again", discountPercentage := 0,
      probability := 5, color := "#74B9FF", textColor := "#FFFFFF" } ]

/-- `getSectionConfig`, from src/domain/enums/WheelSection.ts
(`find(config => config.section === section)`). -/
def getSectionConfig (s : WheelSection) : Option WheelSectionConfig :=
  WHEEL_SECTIONS_CONFIG.find? (fun config => decide (config.«section» = s))

/-- Errors raised by `DiscountPercentage.validatePercentage`
(src/domain/value-objects/DiscountPercentage.ts). -/
inductive DiscountError where
  | isNaN
  | notFinite
  | belowMin
  | aboveMax
deriving DecidableEq

/-- A JavaScript `number` argument: `NaN`, an infinity, or a finite value
(modelled exactly as a rational). -/
inductive JSNum where
  | nan
  | posInf
  | negInf
  | val (q : ℚ)
deriving DecidableEq

/-- JavaScript `Math.round`: round half toward positive infinity,
`⌊q + 1/2⌋`, written through `Rat.num`/`Rat.den` so that it evaluates by
kernel reduction; `jsRound_eq_floor` below is the defining property. -/
def jsRound (q : ℚ) : Int := (q + 1 / 2).num / ((q + 1 / 2).den : Int)

theorem jsRound_eq_floor (q : ℚ) : jsRound q = ⌊q + 1 / 2⌋ :=
  (Rat.floor_def).symm

/-- `Math.round(percentage * 100) / 100`: round to 2 decimals, as in
the `DiscountPercentage` constructor. -/
def round2 (q : ℚ) : ℚ := (jsRound (q * 100) : ℚ) / 100

/-- Rounding to 2 decimals fixes every integer-valued rational. -/
theorem round2_eq_self_of_den_one (q : ℚ) (h : q.den = 1) : round2 q = q := by
  have hq : ((q.num : ℚ)) = q := Rat.coe_int_num_of_den_eq_one h
  unfold round2
  rw [jsRound_eq_floor]
  have hfl : ⌊q * 100 + 1 / 2⌋ = q.num * 100 := by
    rw [Int.floor_eq_iff]
    constructor
    · push_cast
      rw [hq]
      linarith
    · push_cast
      rw [hq]
      linarith
  rw [hfl]
  push_cast
  rw [hq]
  ring

/-- The `DiscountPercentage` constructor
(src/domain/value-objects/DiscountPercentage.ts): `validatePercentage`
(NaN, finiteness, `MIN_DISCOUNT = 0`, `MAX_DISCOUNT = 100`, in that order),
then store the value rounded to 2 decimals. -/
def mkDiscountPercentage : JSNum → Except DiscountError ℚ
  | .nan => .error .isNaN
  | .posInf => .error .notFinite
  | .negInf => .error .notFinite
  | .val q =>
    if q < 0 then .error .belowMin
    else if q > 100 then .error .aboveMax
    else .ok (round2 q)

/-- The character class removed by `String.prototype.trim` (ASCII
whitespace; no string in this development carries the exotic Unicode
spaces, so this is faithful on every input that occurs).  `String.trim`
itself is avoided because its implementation does not reduce in the
kernel. -/
def isJsSpace (c : Char) : Bool :=
  c = ' ' || c = '\t' || c = '\n' || c = '\r'

/-- `String.prototype.trim`, as a character list. -/
def jsTrim (s : String) : List Char :=
  ((s.toList.dropWhile isJsSpace).reverse.dropWhile isJsSpace).reverse

/-- The `WheelResult` entity (src/domain/entities/WheelResult.ts).
Dates are epoch milliseconds; `_timestamp` and `_expiresAt` are set at
construction time (`new Date()` / `Date.now() + 24h`). -/
structure WheelResult where
  id : String
  sessionId : String
  «section» : WheelSection
  discountPercentage : ℚ
  spinAngle : ℚ
  spinDuration : Int
  timestampMs : Int
  isRedeemed : Bool
  redeemedAtMs : Option Int
  expiresAtMs : Int
deriving DecidableEq

/-- Errors thrown by `WheelResult` methods and `validateInputs`. -/
inductive WheelResultError where
  | invalidInput
  | tryAgainNotRedeemable
  | alreadyRedeemed
  | expired
deriving DecidableEq

/-- The `WheelResult` constructor (src/domain/entities/WheelResult.ts):
`validateInputs` (id / sessionId nonempty after trim, section valid — always
true for the enum model — angle in [0, 3600], duration in [1000, 10000]),
then the fields are initialised, with `_isRedeemed = false`,
`_timestamp = new Date()` and `_expiresAt = Date.now() + 24*60*60*1000`. -/
def mkWheelResult (id sessionId : String) (s : WheelSection)
    (discountPercentage : ℚ) (spinAngle : ℚ) (spinDuration : Int)
    (nowMs : Int) : Except WheelResultError WheelResult :=
  if id = "" ∨ (jsTrim id).length = 0 then .error .invalidInput
  else if sessionId = "" ∨ (jsTrim sessionId).length = 0 then
    .error .invalidInput
  else if spinAngle < 0 ∨ spinAngle > 360 * 10 then .error .invalidInput
  else if spinDuration < 1000 ∨ spinDuration > 10000 then .error .invalidInput
  else .ok
    { id := id, sessionId := sessionId, «section» := s,
      discountPercentage := discountPercentage, spinAngle := spinAngle,
      spinDuration := spinDuration, timestampMs := nowMs,
      isRedeemed := false, redeemedAtMs := none,
      expiresAtMs := nowMs + 24 * 60 * 60 * 1000 }

/-- `WheelResult.isWinningResult()`: the section is not `TRY_AGAIN`. -/
def WheelResult.isWinningResult (r : WheelResult) : Bool :=
  decide (r.«section» ≠ WheelSection.tryAgain)

/-- `WheelResult.isExpired()`: `new Date() > this._expiresAt` (strict). -/
def WheelResult.isExpired (r : WheelResult) (nowMs : Int) : Bool :=
  decide (nowMs > r.expiresAtMs)

/-- `WheelResult.markAsRedeemed()` (src/domain/entities/WheelResult.ts):
fails on a "Try Again" result, then on an already-redeemed result, then on
an expired one; otherwise sets `_isRedeemed` and `_redeemedAt`. -/
def WheelResult.markAsRedeemed (r : WheelResult) (nowMs : Int) :
    Except WheelResultError WheelResult :=
  if ¬ r.isWinningResult then .error .tryAgainNotRedeemable
  else if r.isRedeemed then .error .alreadyRedeemed
  else if r.isExpired nowMs then .error .expired
  else .ok { r with isRedeemed := true, redeemedAtMs := some nowMs }

/-! ### Discount-code strings

`WheelResult.getDiscountCode()` builds the code
`INTEL` + percentage digits + 8-char uppercased id prefix + base-36
timestamp, truncated to 16 characters;
`SpinWheelUseCase.redeemWheelDiscount` validates the shape with the regex
`^INTEL\d+[A-Z0-9]+$` and decodes the percentage with the (greedy,
unanchored-on-the-right) regex `INTEL(\d+)`. -/

/-- Decimal digit character for `d < 10`. -/
def digitChar (d : Nat) : Char := Char.ofNat (48 + d)

/-- Structural-recursion helper producing the decimal digits of `n`
(most significant first); `fuel ≥ n` always suffices. -/
def natDigitsAux : Nat → Nat → List Char
  | 0, _ => []
  | fuel + 1, n =>
    if n = 0 then []
    else natDigitsAux fuel (n / 10) ++ [digitChar (n % 10)]

/-- `Number.prototype.toString()` for a nonnegative integer. -/
def natToDigitChars (n : Nat) : List Char :=
  if n = 0 then ['0'] else natDigitsAux (n + 1) n

/-- `parseInt(s, 10)` on a string of decimal digits. -/
def digitCharsToNat (ds : List Char) : Nat :=
  ds.foldl (fun acc c => acc * 10 + (c.toNat - 48)) 0

/-- Base-36 digit as JavaScript prints it, already uppercased
(`toString(36).toUpperCase()`). -/
def base36DigitChar (d : Nat) : Char :=
  if d < 10 then Char.ofNat (48 + d) else Char.ofNat (55 + d)

/-- Structural-recursion helper for base-36 digits (most significant
first). -/
def base36Aux : Nat → Nat → List Char
  | 0, _ => []
  | fuel + 1, n =>
    if n = 0 then []
    else base36Aux fuel (n / 36) ++ [base36DigitChar (n % 36)]

/-- `n.toString(36).toUpperCase()` for a nonnegative integer. -/
def natToBase36Upper (n : Nat) : List Char :=
  if n = 0 then ['0'] else base36Aux (n + 1) n

/-- `getTime().toString(36).toUpperCase()`; `getTime()` of real spin
timestamps is nonnegative, negative values would print with a sign. -/
def base36UpperChars (n : Int) : List Char :=
  if n < 0 then '-' :: natToBase36Upper n.natAbs else natToBase36Upper n.toNat

/-- `Number.prototype.toString()` for a stored `DiscountPercentage` value.
Stored values are always `Math.round(x*100)/100`, i.e. multiples of 1/100
and nonnegative, so the decimal expansion has at most two fractional
digits and JavaScript prints it without an exponent, dropping trailing
zero fractional digits. -/
def jsNumChars (q : ℚ) : List Char :=
  if q.den = 1 then
    if q.num < 0 then '-' :: natToDigitChars q.num.natAbs
    else natToDigitChars q.num.toNat
  else
    let n := (q * 100).num.natAbs
    let intPart := natToDigitChars (n / 100)
    let f := n % 100
    intPart ++ '.' ::
      (if f % 10 = 0 then [digitChar (f / 10)]
       else natToDigitChars (f / 10) ++ [digitChar (f % 10)])

/-- `WheelResult.getDiscountCode()` (src/domain/entities/WheelResult.ts):
throws on "Try Again" results; otherwise
`` `INTEL${percentage}${shortId}${timeCode}`.substring(0, 16) `` where
`shortId = id.substring(0, 8).toUpperCase()` and
`timeCode = timestamp.getTime().toString(36).toUpperCase()`. -/
def WheelResult.getDiscountCode (r : WheelResult) : Option (List Char) :=
  if ¬ r.isWinningResult then none
  else some (List.take 16
    (['I', 'N', 'T', 'E', 'L'] ++ jsNumChars r.discountPercentage ++
      (r.id.toList.take 8).map Char.toUpper ++ base36UpperChars r.timestampMs))

/-- `'0' ≤ c ≤ '9'`, the regex class `\d` over this alphabet. -/
def isDigitChar (c : Char) : Bool := decide ('0' ≤ c) && decide (c ≤ '9')

/-- The regex class `[A-Z0-9]`. -/
def isUpperAlnum (c : Char) : Bool :=
  (decide ('A' ≤ c) && decide (c ≤ 'Z')) || isDigitChar c

/-- Full-string match of `^INTEL\d+[A-Z0-9]+$`
(`codeRegex` in `SpinWheelUseCase.redeemWheelDiscount`).  With
backtracking, the body after the prefix matches exactly the strings of
length ≥ 2 over `[A-Z0-9]` whose first character is a digit (`\d+` can
always shrink to the single leading digit and `\d ⊆ [A-Z0-9]`). -/
def matchesCodeFormat : List Char → Bool
  | 'I' :: 'N' :: 'T' :: 'E' :: 'L' :: d :: c :: rest =>
    isDigitChar d && isUpperAlnum c && rest.all isUpperAlnum
  | _ => false

/-- `discountCode.match(/INTEL(\d+)/)` followed by `parseInt(match[1], 10)`:
the first `INTEL` occurrence in a well-formed code is at the start, and the
greedy `(\d+)` captures the maximal digit run that follows it. -/
def extractCodePercentage : List Char → Option Nat
  | 'I' :: 'N' :: 'T' :: 'E' :: 'L' :: rest =>
    let ds := rest.takeWhile isDigitChar
    if ds = [] then none else some (digitCharsToNat ds)
  | _ => none

/-- Outcome of `SpinWheelUseCase.redeemWheelDiscount` (the storage lookup is
stubbed in the source: every well-formed code is reported valid and not
yet redeemed). -/
structure RedeemOutcome where
  isValid : Bool
  percentage : Option Nat
deriving DecidableEq

/-- `SpinWheelUseCase.redeemWheelDiscount`
(src/application/use-cases/wheel/SpinWheelUseCase.ts): reject codes that
fail the shape regex, then decode the percentage with `INTEL(\d+)`. -/
def redeemWheelDiscount (code : List Char) : RedeemOutcome :=
  if ¬ matchesCodeFormat code then { isValid := false, percentage := none }
  else
    match extractCodePercentage code with
    | none => { isValid := false, percentage := none }
    | some p => { isValid := true, percentage := some p }

/-! ### RandomGenerator (src/shared/utils/RandomGenerator.ts)

Each call to `Math.random()` is modelled by an explicit argument `u`,
a rational in `[0, 1)`. -/

/-- `randomInt(min, max)`: `Math.floor(u * (max - min + 1)) + min`. -/
def randomInt (min max : Int) (u : ℚ) : Int :=
  ⌊u * ((max : ℚ) - (min : ℚ) + 1)⌋ + min

/-- `randomFloat(min, max)`: `u * (max - min) + min`. -/
def randomFloat (min max : ℚ) (u : ℚ) : ℚ :=
  u * (max - min) + min

/-- The accumulation loop of `weightedRandom`: walk the items together with
their normalized weights, keeping the running `cumulativeWeight`, and
return the first item with `u ≤ cumulativeWeight`. -/
def weightedRandomGo {α : Type} : List α → List ℚ → ℚ → ℚ → Option α
  | i :: is, w :: ws, u, cum =>
    let cum' := cum + w
    if u ≤ cum' then some i else weightedRandomGo is ws u cum'
  | _, _, _, _ => none

/-- `weightedRandom(items, weights)` (src/shared/utils/RandomGenerator.ts):
throws (here `none`) on mismatched lengths, empty arrays or zero total
weight; otherwise normalizes the weights to sum to 1, runs the
accumulation loop on the draw `u`, and falls back to the last element when
no index matched. -/
def weightedRandom {α : Type} (items : List α) (weights : List ℚ) (u : ℚ) :
    Option α :=
  if items.length ≠ weights.length then none
  else if items.length = 0 then none
  else
    let totalWeight := weights.foldl (· + ·) 0
    if totalWeight = 0 then none
    else
      let normalizedWeights := weights.map (· / totalWeight)
      match weightedRandomGo items normalizedWeights u 0 with
      | some x => some x
      | none => items.getLast?

/-- `generateWheelSection()`: weighted draw over the sections of
`WHEEL_SECTIONS_CONFIG` with their `probability` columns. -/
def generateWheelSection (u : ℚ) : Option WheelSection :=
  weightedRandom (WHEEL_SECTIONS_CONFIG.map (·.«section»))
    (WHEEL_SECTIONS_CONFIG.map (·.probability)) u

/-- `generateWheelAngle(targetSection)`
(src/shared/utils/RandomGenerator.ts): the section's index in the table
times `360 / totalSections`, plus a random offset in
`[0, degreesPerSection)` (`uOff` draw), plus `randomInt(3, 6) * 360` extra
rotations (`uRot` draw).  The source throws when the section is absent
from the table; every enum value is present, so the model is total and
uses the table index directly. -/
def generateWheelAngle (targetSection : WheelSection) (uOff uRot : ℚ) : ℚ :=
  let sectionIndex :=
    WHEEL_SECTIONS_CONFIG.findIdx (fun c => decide (c.«section» = targetSection))
  let totalSections := WHEEL_SECTIONS_CONFIG.length
  let degreesPerSection : ℚ := 360 / (totalSections : ℚ)
  let baseSectionAngle : ℚ := (sectionIndex : ℚ) * degreesPerSection
  let randomOffset := randomFloat 0 degreesPerSection uOff
  let additionalRotations : ℚ := ((randomInt 3 6 uRot : Int) : ℚ) * 360
  baseSectionAngle + randomOffset + additionalRotations

/-- `generateSpinDuration()`: `randomInt(3000, 5000)`. -/
def generateSpinDuration (u : ℚ) : Int :=
  randomInt 3000 5000 u

/-! ### Specification-side description of the weighted draw

Modelled from the spec: "walk the table accumulating normalized weight
until the cumulative sum meets or exceeds the draw, returning that row; if
floating-point drift prevents any row from matching, return the last row". -/

/-- Prefix sums of a weight list starting from `acc`. -/
def cumSums (acc : ℚ) : List ℚ → List ℚ
  | [] => []
  | w :: ws => (acc + w) :: cumSums (acc + w) ws

/-- Index of the first entry `c` of the list with `u ≤ c`. -/
def firstIndexAtLeast (u : ℚ) : List ℚ → Option Nat
  | [] => none
  | c :: cs => if u ≤ c then some 0 else (firstIndexAtLeast u cs).map (· + 1)

/-- Modelled from the spec: the row of the fixed outcome table selected by a
draw `u` — the first row (in table order) whose cumulative normalized
probability is ≥ `u`, and the last row when none matches. -/
def wheelSelectSpec (u : ℚ) : WheelSection :=
  let sections := WHEEL_SECTIONS_CONFIG.map (·.«section»)
  let probs := WHEEL_SECTIONS_CONFIG.map (·.probability)
  let total := probs.foldl (· + ·) 0
  let cumulative := cumSums 0 (probs.map (· / total))
  match firstIndexAtLeast u cumulative with
  | some i => sections.getD i WheelSection.tryAgain
  | none => (sections.getLast?).getD WheelSection.tryAgain

/-! ### SpinWheelUseCase (src/application/use-cases/wheel/SpinWheelUseCase.ts)

The storage collaborator is stubbed in the source (`loadUserSpinHistory`
returns an empty history and `saveSpinResult` only logs); following the
spec's contract for the collaborator, the loaded history is an input and
the save step appends to an explicit store that is threaded through
`execute`. -/

/-- One persisted spin, as far as the eligibility checks read it
(`spin.timestamp`). -/
structure SpinRecord where
  timestampMs : Int
deriving DecidableEq

/-- The `SpinLimits` configuration record. -/
structure SpinLimits where
  maxSpinsPerSession : Nat
  maxSpinsPerDay : Nat
  maxSpinsPerIp : Nat
  cooldownBetweenSpins : Int
deriving DecidableEq

/-- `defaultLimits` of `SpinWheelUseCase`, also the `getSpinLimits` env-var
defaults: 3 per session, 10 per day, 15 per IP, 5-minute cooldown. -/
def defaultLimits : SpinLimits :=
  { maxSpinsPerSession := 3, maxSpinsPerDay := 10, maxSpinsPerIp := 15,
    cooldownBetweenSpins := 5 * 60 * 1000 }

/-- The `UserSpinHistory` record loaded for a caller. -/
structure UserSpinHistory where
  sessionId : String
  spinsToday : List SpinRecord
  spinsInSession : List SpinRecord
  lastSpinAt : Option Int
  totalSpins : Nat
deriving DecidableEq

/-- `WheelSpinRequestDTO` fields used by the use case. -/
structure WheelSpinRequest where
  sessionId : String
  userId : Option String := none
  userIp : Option String := none
  userAgent : Option String := none
deriving DecidableEq

/-- `SpinWheelOptions`; `none` models an absent (`undefined`) option, so the
source's `options.x !== false` checks become `x ≠ some false`. -/
structure SpinWheelOptions where
  validateCooldown : Option Bool := none
  validateSpinLimits : Option Bool := none
  saveResult : Option Bool := none
  logSpin : Option Bool := none
deriving DecidableEq

/-- Errors thrown out of `SpinWheelUseCase.execute` (the distinct
`ValidationException` factory calls, plus entity-construction failures and
the unreachable internal throws of the random helpers). -/
inductive SpinError where
  | requiredSessionId
  | sessionIdTooLong
  | invalidIp
  | rateLimitCooldown (minutesRemaining : Int)
  | rateLimitDaily
  | rateLimitSession
  | businessRule
  | entity (e : WheelResultError)
  | internal
deriving DecidableEq

/-- The rate-limit errors (`ValidationException.rateLimitExceeded`). -/
def SpinError.isRateLimit : SpinError → Bool
  | .rateLimitCooldown _ => true
  | .rateLimitDaily => true
  | .rateLimitSession => true
  | _ => false

/-- One octet of the IPv4 regex
`(25[0-5]|2[0-4][0-9]|[01]?[0-9][0-9]?)` as a full match of one
dot-separated component. -/
def isIpOctet (s : List Char) : Bool :=
  match s with
  | [a] => isDigitChar a
  | [a, b] => isDigitChar a && isDigitChar b
  | [a, b, c] =>
    (a = '2' && b = '5' && decide ('0' ≤ c) && decide (c ≤ '5')) ||
    (a = '2' && decide ('0' ≤ b) && decide (b ≤ '4') && isDigitChar c) ||
    ((a = '0' || a = '1') && isDigitChar b && isDigitChar c)
  | _ => false

/-- The anchored IPv4 regex of `validateRequest`: exactly four
dot-separated octets. -/
def isValidIpv4 (s : String) : Bool :=
  let parts := (s.splitOn ".").map String.toList
  parts.length = 4 && parts.all isIpOctet

/-- `SpinWheelUseCase.validateRequest`: `sessionId` required and nonempty
after trim, at most 100 characters; a present (truthy, i.e. nonempty)
`userIp` must match the IPv4 regex. -/
def validateRequest (request : WheelSpinRequest) : Except SpinError Unit :=
  if request.sessionId = "" ∨ (jsTrim request.sessionId).length = 0 then
    .error .requiredSessionId
  else if request.sessionId.length > 100 then .error .sessionIdTooLong
  else
    match request.userIp with
    | some ip =>
      if ip ≠ "" ∧ ¬ isValidIpv4 ip then .error .invalidIp else .ok ()
    | none => .ok ()

/-- Two instants fall on the same UTC calendar day; this is the source's
comparison of `toISOString()` date prefixes (`YYYY-MM-DD`). -/
def sameUtcDay (a b : Int) : Bool :=
  decide (Int.fdiv a 86400000 = Int.fdiv b 86400000)

/-- `SpinWheelUseCase.checkCanSpin`: cooldown since `lastSpinAt`, then the
session cap, then the daily cap over the `spinsToday` entries whose ISO
date equals today's. -/
def checkCanSpin (history : UserSpinHistory) (limits : SpinLimits)
    (nowMs : Int) : Bool :=
  if (match history.lastSpinAt with
      | some last => decide (nowMs - last < limits.cooldownBetweenSpins)
      | none => false) then false
  else if history.spinsInSession.length ≥ limits.maxSpinsPerSession then false
  else if (history.spinsToday.filter
      (fun spin => sameUtcDay spin.timestampMs nowMs)).length ≥
      limits.maxSpinsPerDay then false
  else true

/-- `SpinWheelUseCase.calculateCooldownRemaining`:
`max(0, cooldown - (now - lastSpinAt))`, `0` without a last spin. -/
def calculateCooldownRemaining (history : UserSpinHistory)
    (limits : SpinLimits) (nowMs : Int) : Int :=
  match history.lastSpinAt with
  | none => 0
  | some last => max 0 (limits.cooldownBetweenSpins - (nowMs - last))

/-- `SpinWheelUseCase.validateCanSpin`: when the context says the caller
cannot spin, report the specific reason — remaining cooldown (in minutes,
`Math.ceil(ms / 60000)`), then the daily cap, then the session cap, with a
generic business-rule error as the fallthrough. -/
def validateCanSpin (canSpin : Bool) (cooldownRemaining : Int)
    (history : UserSpinHistory) (limits : SpinLimits) (nowMs : Int) :
    Except SpinError Unit :=
  if canSpin then .ok ()
  else if cooldownRemaining > 0 then
    .error (.rateLimitCooldown (Int.ediv (cooldownRemaining + 59999) 60000))
  else if (history.spinsToday.filter
      (fun spin => sameUtcDay spin.timestampMs nowMs)).length ≥
      limits.maxSpinsPerDay then .error .rateLimitDaily
  else if history.spinsInSession.length ≥ limits.maxSpinsPerSession then
    .error .rateLimitSession
  else .error .businessRule

/-- Midnight starting the next calendar day in the runtime's local
timezone: the source's `tomorrow.setDate(getDate() + 1);
tomorrow.setHours(0, 0, 0, 0)` on a copy of `now`, for a fixed UTC offset
of `tzOffsetMs` milliseconds. -/
def nextLocalMidnight (nowMs tzOffsetMs : Int) : Int :=
  (Int.fdiv (nowMs + tzOffsetMs) 86400000 + 1) * 86400000 - tzOffsetMs

/-- Modelled from the spec: "next-eligible = next UTC midnight" —
00:00:00.000 of the next UTC calendar day after `now`. -/
def nextUtcMidnight (nowMs : Int) : Int :=
  (Int.fdiv nowMs 86400000 + 1) * 86400000

/-- The next-spin information returned to the caller. -/
structure NextSpinInfo where
  canSpinAgain : Bool
  nextSpinAllowedAt : Option Int
  spinsRemainingToday : Int
deriving DecidableEq

/-- `SpinWheelUseCase.calculateNextSpinInfo`: counts the new spin as
already in history (`+ 1` on both counters), reports the cooldown end when
neither cap is reached, local midnight of the next day when the daily cap
is reached, and no next time when only the session cap is reached. -/
def calculateNextSpinInfo (limits : SpinLimits) (history : UserSpinHistory)
    (nowMs tzOffsetMs : Int) : NextSpinInfo :=
  let nextSpinByCooldown := nowMs + limits.cooldownBetweenSpins
  let spinsInSessionAfter := history.spinsInSession.length + 1
  let spinsToday := history.spinsToday.length + 1
  let reachedSessionLimit : Bool :=
    spinsInSessionAfter ≥ limits.maxSpinsPerSession
  let reachedDailyLimit : Bool := spinsToday ≥ limits.maxSpinsPerDay
  let canSpinAgain : Bool := !reachedSessionLimit && !reachedDailyLimit
  let nextSpinAllowedAt : Option Int :=
    if canSpinAgain then some nextSpinByCooldown
    else if reachedDailyLimit then some (nextLocalMidnight nowMs tzOffsetMs)
    else none
  { canSpinAgain := canSpinAgain,
    nextSpinAllowedAt := nextSpinAllowedAt,
    spinsRemainingToday :=
      max 0 ((limits.maxSpinsPerDay : Int) - (spinsToday : Int)) }

/-- `WheelSpinResponseDTO` fields produced by `toResponseDTO`. -/
structure WheelSpinResponse where
  id : String
  sessionId : String
  «section» : WheelSection
  discountPercentage : ℚ
  spinAngle : ℚ
  spinDuration : Int
  timestampMs : Int
  isWinning : Bool
  discountCode : Option (List Char)
  expiresAtMs : Option Int
  nextSpinAllowedAtMs : Option Int
deriving DecidableEq

/-- `SpinWheelUseCase.toResponseDTO`. -/
def toResponseDTO (wheelResult : WheelResult)
    (nextSpinAllowedAt : Option Int) : WheelSpinResponse :=
  { id := wheelResult.id, sessionId := wheelResult.sessionId,
    «section» := wheelResult.«section»,
    discountPercentage := wheelResult.discountPercentage,
    spinAngle := wheelResult.spinAngle,
    spinDuration := wheelResult.spinDuration,
    timestampMs := wheelResult.timestampMs,
    isWinning := wheelResult.isWinningResult,
    discountCode :=
      if wheelResult.isWinningResult then wheelResult.getDiscountCode
      else none,
    expiresAtMs :=
      if wheelResult.isWinningResult then some wheelResult.expiresAtMs
      else none,
    nextSpinAllowedAtMs := nextSpinAllowedAt }

/-- The `SpinWheelResult` returned by `execute`. -/
structure SpinWheelOutcome where
  result : WheelSpinResponse
  canSpinAgain : Bool
  nextSpinAllowedAt : Option Int
  spinsRemainingToday : Int
deriving DecidableEq

/-- The ambient inputs of one `execute` call: the current instant, the
runtime's UTC offset, the four `Math.random()` draws consumed by
`generateWheelSection` / `generateWheelAngle` / `generateSpinDuration`,
and the id produced by `generateId(16)`. -/
structure SpinEnv where
  nowMs : Int
  tzOffsetMs : Int
  uSection : ℚ
  uOffset : ℚ
  uRotations : ℚ
  uDuration : ℚ
  idStr : String
deriving DecidableEq

/-- `SpinWheelUseCase.execute`
(src/application/use-cases/wheel/SpinWheelUseCase.ts): validate the
request; build the processing context (load history, limits, draw section,
angle and duration, build the `DiscountPercentage` from the section
config, precompute `canSpin` / `cooldownRemaining`); run `validateCanSpin`
unless both `validateCooldown` and `validateSpinLimits` are `false`;
construct the `WheelResult`; append it to the store unless
`saveResult === false`; and compute the next-spin info.  A thrown error
leaves the store unchanged.  The function returns the outcome (or the
error) together with the final store. -/
def execute (request : WheelSpinRequest) (options : SpinWheelOptions)
    (history : UserSpinHistory) (limits : SpinLimits) (env : SpinEnv)
    (store : List WheelResult) :
    Except SpinError SpinWheelOutcome × List WheelResult :=
  match validateRequest request with
  | .error e => (.error e, store)
  | .ok () =>
    match generateWheelSection env.uSection with
    | none => (.error .internal, store)
    | some selectedSection =>
      let spinAngle := generateWheelAngle selectedSection env.uOffset env.uRotations
      let spinDuration := generateSpinDuration env.uDuration
      let sectionPct : ℚ :=
        ((getSectionConfig selectedSection).map (·.discountPercentage)).getD 0
      match mkDiscountPercentage (.val sectionPct) with
      | .error _ => (.error .internal, store)
      | .ok discountPercentage =>
        let canSpin := checkCanSpin history limits env.nowMs
        let cooldownRemaining :=
          calculateCooldownRemaining history limits env.nowMs
        match (if options.validateCooldown ≠ some false ∨
                  options.validateSpinLimits ≠ some false then
                 validateCanSpin canSpin cooldownRemaining history limits
                   env.nowMs
               else .ok ()) with
        | .error e => (.error e, store)
        | .ok () =>
          match mkWheelResult env.idStr request.sessionId selectedSection
              discountPercentage spinAngle spinDuration env.nowMs with
          | .error e => (.error (.entity e), store)
          | .ok wheelResult =>
            let store' :=
              if options.saveResult ≠ some false then store ++ [wheelResult]
              else store
            let nextSpinInfo :=
              calculateNextSpinInfo limits history env.nowMs env.tzOffsetMs
            (.ok { result :=
                     toResponseDTO wheelResult nextSpinInfo.nextSpinAllowedAt,
                   canSpinAgain := nextSpinInfo.canSpinAgain,
                   nextSpinAllowedAt := nextSpinInfo.nextSpinAllowedAt,
                   spinsRemainingToday := nextSpinInfo.spinsRemainingToday },
             store')

/-! ## Theorems -/

/-- C8: the static outcome table has exactly 8 rows and its `probability`
fields sum to exactly 100 (25 + 20 + 15 + 15 + 10 + 8 + 2 + 5). -/
theorem wheel_config_eight_rows_sum_100 :
    WHEEL_SECTIONS_CONFIG.length = 8 ∧
    (WHEEL_SECTIONS_CONFIG.map (·.probability)).sum = 100 ∧
    (WHEEL_SECTIONS_CONFIG.map (·.probability)).sum =
      25 + 20 + 15 + 15 + 10 + 8 + 2 + 5 := by
  refine ⟨rfl, ?_, ?_⟩ <;> norm_num [WHEEL_SECTIONS_CONFIG]

/-- C9: `DiscountPercentage` construction raises a domain error for NaN,
non-finite, negative and greater-than-100 inputs, and succeeds on every
finite input in `[0, 100]`, storing the value rounded to 2 decimals. -/
theorem discountPercentage_construction_spec (q : ℚ) :
    mkDiscountPercentage .nan = .error .isNaN ∧
    mkDiscountPercentage .posInf = .error .notFinite ∧
    mkDiscountPercentage .negInf = .error .notFinite ∧
    (q < 0 → mkDiscountPercentage (.val q) = .error .belowMin) ∧
    (q > 100 → mkDiscountPercentage (.val q) = .error .aboveMax) ∧
    (0 ≤ q → q ≤ 100 → mkDiscountPercentage (.val q) = .ok (round2 q)) := by
  refine ⟨rfl, rfl, rfl, ?_, ?_, ?_⟩
  · intro h
    simp [mkDiscountPercentage, h]
  · intro h
    simp [mkDiscountPercentage, not_lt.mpr (le_of_lt (by linarith : (0:ℚ) < q)), h]
  · intro h0 h100
    simp [mkDiscountPercentage, not_lt.mpr h0, not_lt.mpr h100]

/-- Witness for C9 at the spec's distinguished inputs `-1`, `101`, `0`,
`100`, `NaN` and `Infinity`. -/
theorem discountPercentage_construction_spec_witness :
    mkDiscountPercentage (.val (-1)) = .error .belowMin ∧
    mkDiscountPercentage (.val 101) = .error .aboveMax ∧
    mkDiscountPercentage .nan = .error .isNaN ∧
    mkDiscountPercentage .posInf = .error .notFinite ∧
    mkDiscountPercentage (.val 0) = .ok (round2 0) ∧
    mkDiscountPercentage (.val 100) = .ok (round2 100) := by
  refine ⟨(discountPercentage_construction_spec (-1)).2.2.2.1 (by norm_num),
    (discountPercentage_construction_spec 101).2.2.2.2.1 (by norm_num),
    (discountPercentage_construction_spec 0).1,
    (discountPercentage_construction_spec 0).2.1,
    (discountPercentage_construction_spec 0).2.2.2.2.2 le_rfl (by norm_num),
    (discountPercentage_construction_spec 100).2.2.2.2.2 (by norm_num) le_rfl⟩

/-- C5: `markAsRedeemed()` fails exactly when the section is `TRY_AGAIN`,
the result is already redeemed, or it is expired; on a winning,
unredeemed, unexpired result it succeeds, sets `isRedeemed` and records
`redeemedAt`, and a second call then fails with the already-redeemed
error. -/
theorem markAsRedeemed_spec (r : WheelResult) (nowMs nowMs2 : Int) :
    ((∃ e, r.markAsRedeemed nowMs = .error e) ↔
      (r.«section» = WheelSection.tryAgain ∨ r.isRedeemed = true ∨
        nowMs > r.expiresAtMs)) ∧
    (r.«section» ≠ WheelSection.tryAgain → r.isRedeemed = false →
      nowMs ≤ r.expiresAtMs →
      r.markAsRedeemed nowMs =
        .ok { r with isRedeemed := true, redeemedAtMs := some nowMs } ∧
      WheelResult.markAsRedeemed
          { r with isRedeemed := true, redeemedAtMs := some nowMs } nowMs2 =
        .error .alreadyRedeemed) := by
  constructor
  · unfold WheelResult.markAsRedeemed WheelResult.isWinningResult
      WheelResult.isExpired
    by_cases hs : r.«section» = WheelSection.tryAgain <;>
      by_cases hr : r.isRedeemed <;>
      by_cases he : nowMs > r.expiresAtMs <;>
      simp [hs, hr, he]
  · intro hs hr he
    constructor
    · unfold WheelResult.markAsRedeemed WheelResult.isWinningResult
        WheelResult.isExpired
      simp [hs, hr, not_lt.mpr he]
    · unfold WheelResult.markAsRedeemed WheelResult.isWinningResult
        WheelResult.isExpired
      simp [hs]

/-- Witness for C5: an unredeemed winning result redeemed at its creation
instant, then redeemed again. -/
theorem markAsRedeemed_spec_witness :
    ¬(WheelResult.«section» ⟨"id1", "s1", .discount10, 10, 1080, 3000, 0,
        false, none, 86400000⟩ = WheelSection.tryAgain ∨
      WheelResult.isRedeemed ⟨"id1", "s1", .discount10, 10, 1080, 3000, 0,
        false, none, 86400000⟩ = true ∨ (5:Int) > 86400000) ∧
    WheelResult.markAsRedeemed ⟨"id1", "s1", .discount10, 10, 1080, 3000, 0,
        false, none, 86400000⟩ 5 =
      .ok ⟨"id1", "s1", .discount10, 10, 1080, 3000, 0, true, some 5,
        86400000⟩ ∧
    WheelResult.markAsRedeemed ⟨"id1", "s1", .discount10, 10, 1080, 3000, 0,
        true, some 5, 86400000⟩ 6 = .error .alreadyRedeemed := by
  have h := markAsRedeemed_spec ⟨"id1", "s1", .discount10, 10, 1080, 3000, 0,
    false, none, 86400000⟩ 5 6
  have h2 := h.2 (by decide) rfl (by decide)
  exact ⟨by decide, h2.1, h2.2⟩

/-- C2 (amended): when the daily cap is reached and the session cap is not,
`nextSpinAllowedAt` is 00:00:00.000 of the next calendar day in the
runtime's local timezone; this coincides with the next UTC midnight
exactly in a UTC runtime (offset 0). -/
theorem dailyCap_nextSpin_is_local_midnight (limits : SpinLimits)
    (history : UserSpinHistory) (nowMs tzOffsetMs : Int)
    (hday : limits.maxSpinsPerDay ≤ history.spinsToday.length + 1)
    (hsession : history.spinsInSession.length + 1 < limits.maxSpinsPerSession) :
    (calculateNextSpinInfo limits history nowMs tzOffsetMs).nextSpinAllowedAt =
      some (nextLocalMidnight nowMs tzOffsetMs) ∧
    nextLocalMidnight nowMs 0 = nextUtcMidnight nowMs := by
  constructor
  · simp only [calculateNextSpinInfo]
    simp [decide_eq_true_eq, hday, Nat.not_le.mpr hsession, not_le.mpr hsession]
  · simp [nextLocalMidnight, nextUtcMidnight]

/-- Witness for C2 (amended): nine spins today against the default limits,
at epoch instant 0 in a UTC-5 runtime. -/
theorem dailyCap_nextSpin_is_local_midnight_witness :
    (calculateNextSpinInfo defaultLimits
        ⟨"s1", List.replicate 9 ⟨0⟩, [], none, 9⟩ 0
        (-18000000)).nextSpinAllowedAt = some (nextLocalMidnight 0 (-18000000)) ∧
    nextLocalMidnight 0 0 = nextUtcMidnight 0 :=
  dailyCap_nextSpin_is_local_midnight defaultLimits
    ⟨"s1", List.replicate 9 ⟨0⟩, [], none, 9⟩ 0 (-18000000)
    (by decide) (by decide)

/-- Counterexample for C2 as stated: at epoch instant 0 in a UTC-5 runtime
(fixed offset -18000000 ms), with the daily cap reached and the session
cap not reached, the returned `nextSpinAllowedAt` is 05:00 UTC (local
midnight), not the next UTC midnight. -/
theorem dailyCap_nextSpin_not_utc_midnight :
    defaultLimits.maxSpinsPerDay ≤
      (List.replicate 9 (SpinRecord.mk 0)).length + 1 ∧
    ([] : List SpinRecord).length + 1 < defaultLimits.maxSpinsPerSession ∧
    (calculateNextSpinInfo defaultLimits
        ⟨"s1", List.replicate 9 ⟨0⟩, [], none, 9⟩ 0
        (-18000000)).nextSpinAllowedAt = some 18000000 ∧
    nextUtcMidnight 0 = 86400000 ∧
    (calculateNextSpinInfo defaultLimits
        ⟨"s1", List.replicate 9 ⟨0⟩, [], none, 9⟩ 0
        (-18000000)).nextSpinAllowedAt ≠ some (nextUtcMidnight 0) := by
  refine ⟨by decide, by decide, by decide, by decide, by decide⟩

/-! ### The weighted draw matches its first-index description -/

theorem cumSums_length (acc : ℚ) (ws : List ℚ) :
    (cumSums acc ws).length = ws.length := by
  induction ws generalizing acc with
  | nil => rfl
  | cons w ws ih => simp [cumSums, ih]

theorem firstIndexAtLeast_lt_length (u : ℚ) :
    ∀ cs i, firstIndexAtLeast u cs = some i → i < cs.length := by
  intro cs
  induction cs with
  | nil => intro i h; simp [firstIndexAtLeast] at h
  | cons c cs ih =>
    intro i h
    simp only [firstIndexAtLeast] at h
    split at h
    · cases h; simp
    · cases hrec : firstIndexAtLeast u cs with
      | none => rw [hrec] at h; simp at h
      | some j =>
        rw [hrec] at h
        simp at h
        have hj := ih j hrec
        simp only [List.length_cons]
        omega

/-- The accumulation loop returns the item at the first index whose
cumulative weight (starting from `acc`) is ≥ `u`. -/
theorem weightedRandomGo_eq {α : Type} (u : ℚ) :
    ∀ (items : List α) (ws : List ℚ) (acc : ℚ),
      items.length = ws.length →
      weightedRandomGo items ws u acc =
        match firstIndexAtLeast u (cumSums acc ws) with
        | some i => items[i]?
        | none => none := by
  intro items
  induction items with
  | nil =>
    intro ws acc h
    cases ws with
    | nil => simp [weightedRandomGo, cumSums, firstIndexAtLeast]
    | cons w ws => simp at h
  | cons x xs ih =>
    intro ws acc h
    cases ws with
    | nil => simp at h
    | cons w ws =>
      simp only [weightedRandomGo, cumSums, firstIndexAtLeast]
      by_cases hc : u ≤ acc + w
      · simp [hc]
      · simp only [if_neg hc]
        rw [ih ws (acc + w) (by simpa using h)]
        cases hrec : firstIndexAtLeast u (cumSums (acc + w) ws) with
        | none => simp [hrec]
        | some j => simp [hrec]

/-- The wheel draw refines the spec-side description, for every draw. -/
theorem generateWheelSection_eq_spec (u : ℚ) :
    generateWheelSection u = some (wheelSelectSpec u) := by
  have hfold : (WHEEL_SECTIONS_CONFIG.map (·.probability)).foldl (· + ·) 0 =
      (100 : ℚ) := by
    norm_num [WHEEL_SECTIONS_CONFIG]
  simp only [generateWheelSection, weightedRandom, wheelSelectSpec, hfold]
  rw [if_neg (by simp), if_neg (by simp [WHEEL_SECTIONS_CONFIG]),
    if_neg (by norm_num)]
  rw [weightedRandomGo_eq u _ _ _ (by simp)]
  cases hrec : firstIndexAtLeast u
      (cumSums 0 ((WHEEL_SECTIONS_CONFIG.map (·.probability)).map
        (· / (100 : ℚ)))) with
  | some i =>
    have hi : i < 8 := by
      have := firstIndexAtLeast_lt_length u _ i hrec
      simpa [cumSums_length, WHEEL_SECTIONS_CONFIG] using this
    interval_cases i <;> rfl
  | none => rfl

/-- The spec-side selection always lands in the table. -/
theorem wheelSelectSpec_mem (u : ℚ) :
    wheelSelectSpec u ∈ WHEEL_SECTIONS_CONFIG.map (·.«section») := by
  have hfold : (WHEEL_SECTIONS_CONFIG.map (·.probability)).foldl (· + ·) 0 =
      (100 : ℚ) := by
    norm_num [WHEEL_SECTIONS_CONFIG]
  simp only [wheelSelectSpec, hfold]
  cases hrec : firstIndexAtLeast u
      (cumSums 0 ((WHEEL_SECTIONS_CONFIG.map (·.probability)).map
        (· / (100 : ℚ)))) with
  | some i =>
    have hi : i < 8 := by
      have := firstIndexAtLeast_lt_length u _ i hrec
      simpa [cumSums_length, WHEEL_SECTIONS_CONFIG] using this
    interval_cases i <;> decide
  | none => decide

/-- C4: for every uniform draw `u` in `[0, 1)`, the weighted draw returns
the first row (in table order) whose cumulative normalized probability is
≥ `u` (with the last row as fallback when none matches), and the returned
row is an element of the 8-row outcome table. -/
theorem weighted_draw_first_match (u : ℚ) (h0 : 0 ≤ u) (h1 : u < 1) :
    generateWheelSection u = some (wheelSelectSpec u) ∧
    wheelSelectSpec u ∈ WHEEL_SECTIONS_CONFIG.map (·.«section») :=
  ⟨generateWheelSection_eq_spec u, wheelSelectSpec_mem u⟩

/-- Witness for C4 at the draw `u = 1/2`. -/
theorem weighted_draw_first_match_witness :
    (0 ≤ (1/2 : ℚ) ∧ (1/2 : ℚ) < 1) ∧
    (generateWheelSection (1/2) = some (wheelSelectSpec (1/2)) ∧
      wheelSelectSpec (1/2) ∈ WHEEL_SECTIONS_CONFIG.map (·.«section»)) :=
  ⟨⟨by norm_num, by norm_num⟩,
    weighted_draw_first_match (1/2) (by norm_num) (by norm_num)⟩

/-! ### Ranges of the random helpers -/

/-- `randomInt(min, max)` is inclusive on both ends for draws in
`[0, 1)`. -/
theorem randomInt_bounds (min max : Int) (u : ℚ) (hmm : min ≤ max)
    (h0 : 0 ≤ u) (h1 : u < 1) :
    min ≤ randomInt min max u ∧ randomInt min max u ≤ max := by
  unfold randomInt
  have hk : (0 : ℚ) < (max : ℚ) - (min : ℚ) + 1 := by
    have : (min : ℚ) ≤ (max : ℚ) := by exact_mod_cast hmm
    linarith
  constructor
  · have hf : (0 : ℤ) ≤ ⌊u * ((max : ℚ) - (min : ℚ) + 1)⌋ :=
      Int.floor_nonneg.mpr (mul_nonneg h0 hk.le)
    omega
  · have hlt : u * ((max : ℚ) - (min : ℚ) + 1) < (max : ℚ) - (min : ℚ) + 1 := by
      nlinarith
    have hf : ⌊u * ((max : ℚ) - (min : ℚ) + 1)⌋ < max - min + 1 := by
      apply Int.floor_lt.mpr
      push_cast
      linarith
    omega

/-- `generateSpinDuration` lies in `[3000, 5000]` for draws in `[0, 1)`. -/
theorem generateSpinDuration_bounds (u : ℚ) (h0 : 0 ≤ u) (h1 : u < 1) :
    3000 ≤ generateSpinDuration u ∧ generateSpinDuration u ≤ 5000 :=
  randomInt_bounds 3000 5000 u (by norm_num) h0 h1

/-- Every section sits at one of the 8 table indices. -/
theorem sectionIdx_le (s : WheelSection) :
    WHEEL_SECTIONS_CONFIG.findIdx (fun c => decide (c.«section» = s)) ≤ 7 := by
  cases s <;> decide

/-- The spin angle lies in `[1080, 2520)` for draws in `[0, 1)`: base
slice angle (index · 45°) plus an offset in `[0, 45)` plus 3–6 whole
rotations. -/
theorem wheelAngle_range (s : WheelSection) (uOff uRot : ℚ)
    (ho0 : 0 ≤ uOff) (ho1 : uOff < 1) (hr0 : 0 ≤ uRot) (hr1 : uRot < 1) :
    1080 ≤ generateWheelAngle s uOff uRot ∧
    generateWheelAngle s uOff uRot < 2520 := by
  have hidx := sectionIdx_le s
  have hk := randomInt_bounds 3 6 uRot (by norm_num) hr0 hr1
  simp only [generateWheelAngle, randomFloat]
  have hlen : WHEEL_SECTIONS_CONFIG.length = 8 := rfl
  rw [hlen]
  have hiq : ((WHEEL_SECTIONS_CONFIG.findIdx
      (fun c => decide (c.«section» = s)) : ℚ)) ≤ 7 := by
    exact_mod_cast hidx
  have hiq0 : (0 : ℚ) ≤ ((WHEEL_SECTIONS_CONFIG.findIdx
      (fun c => decide (c.«section» = s)) : ℚ)) := by positivity
  have hk3 : (3 : ℚ) ≤ ((randomInt 3 6 uRot : Int) : ℚ) := by
    exact_mod_cast hk.1
  have hk6 : ((randomInt 3 6 uRot : Int) : ℚ) ≤ 6 := by
    exact_mod_cast hk.2
  constructor <;> [nlinarith; nlinarith]

/-- C7: for every section and every pair of draws in `[0, 1)`, the spin
angle is in `[1080, 2520)` degrees: base slice angle (index · 45°) plus an
offset in `[0, 45)` plus 3–6 whole extra rotations. -/
theorem generateWheelAngle_bounds (s : WheelSection) (uOff uRot : ℚ)
    (ho0 : 0 ≤ uOff) (ho1 : uOff < 1) (hr0 : 0 ≤ uRot) (hr1 : uRot < 1) :
    1080 ≤ generateWheelAngle s uOff uRot ∧
    generateWheelAngle s uOff uRot < 2520 :=
  wheelAngle_range s uOff uRot ho0 ho1 hr0 hr1

/-- Witness for C7 at section `DISCOUNT_5` and draws `0`, `0`. -/
theorem generateWheelAngle_bounds_witness :
    1080 ≤ generateWheelAngle WheelSection.discount5 0 0 ∧
    generateWheelAngle WheelSection.discount5 0 0 < 2520 :=
  generateWheelAngle_bounds WheelSection.discount5 0 0 le_rfl (by norm_num)
    le_rfl (by norm_num)

/-! ### The eligibility gate of `execute` -/

/-- Every section's configured percentage passes the
`DiscountPercentage` constructor unchanged. -/
theorem mkDiscountPercentage_section (s : WheelSection) :
    mkDiscountPercentage
        (.val (((getSectionConfig s).map (·.discountPercentage)).getD 0)) =
      .ok (((getSectionConfig s).map (·.discountPercentage)).getD 0) := by
  have h : ∀ n : ℚ, n.den = 1 → ¬ n < 0 → ¬ n > 100 →
      mkDiscountPercentage (.val n) = .ok n := by
    intro n hden h0 h100
    simp only [mkDiscountPercentage]
    rw [if_neg h0, if_neg h100, round2_eq_self_of_den_one n hden]
  cases s <;> exact h _ (by decide) (by decide) (by decide)

/-- When `checkCanSpin` says no, `validateCanSpin` throws one of the three
rate-limit errors (never the generic business-rule fallthrough). -/
theorem validateCanSpin_rateLimit (history : UserSpinHistory)
    (limits : SpinLimits) (nowMs : Int)
    (h : checkCanSpin history limits nowMs = false) :
    ∃ e, validateCanSpin (checkCanSpin history limits nowMs)
        (calculateCooldownRemaining history limits nowMs) history limits
        nowMs = .error e ∧ e.isRateLimit = true := by
  rw [h]
  unfold checkCanSpin at h
  unfold validateCanSpin
  rw [if_neg (by simp : ¬(false : Bool) = true)]
  cases hl : history.lastSpinAt with
  | some last =>
    rw [hl] at h
    by_cases hcd : nowMs - last < limits.cooldownBetweenSpins
    · have hpos : calculateCooldownRemaining history limits nowMs > 0 := by
        simp only [calculateCooldownRemaining, hl, gt_iff_lt, lt_max_iff]
        right
        omega
      rw [if_pos hpos]
      exact ⟨_, rfl, rfl⟩
    · have hz : calculateCooldownRemaining history limits nowMs = 0 := by
        simp only [calculateCooldownRemaining, hl]
        omega
      rw [hz]
      rw [if_neg (by omega : ¬(0 : Int) > 0)]
      rw [if_neg (by simpa using hcd)] at h
      by_cases hdaily : (history.spinsToday.filter
          (fun spin => sameUtcDay spin.timestampMs nowMs)).length ≥
          limits.maxSpinsPerDay
      · rw [if_pos hdaily]
        exact ⟨_, rfl, rfl⟩
      · rw [if_neg hdaily]
        rw [if_neg hdaily] at h
        by_cases hsess : history.spinsInSession.length ≥
            limits.maxSpinsPerSession
        · rw [if_pos hsess]
          exact ⟨_, rfl, rfl⟩
        · rw [if_neg hsess] at h
          simp at h
  | none =>
    rw [hl] at h
    have hz : calculateCooldownRemaining history limits nowMs = 0 := by
      simp only [calculateCooldownRemaining, hl]
    rw [hz]
    rw [if_neg (by omega : ¬(0 : Int) > 0)]
    rw [if_neg (by simp : ¬(false : Bool) = true)] at h
    by_cases hdaily : (history.spinsToday.filter
        (fun spin => sameUtcDay spin.timestampMs nowMs)).length ≥
        limits.maxSpinsPerDay
    · rw [if_pos hdaily]
      exact ⟨_, rfl, rfl⟩
    · rw [if_neg hdaily]
      rw [if_neg hdaily] at h
      by_cases hsess : history.spinsInSession.length ≥
          limits.maxSpinsPerSession
      · rw [if_pos hsess]
        exact ⟨_, rfl, rfl⟩
      · rw [if_neg hsess] at h
        simp at h

/-- C3: a request from an ineligible caller (cooldown running, daily cap
reached or session cap reached), with the eligibility checks not disabled,
makes `execute` throw a rate-limit error and leaves the store unchanged —
no `WheelResult` is persisted. -/
theorem execute_rateLimit_no_save (request : WheelSpinRequest)
    (options : SpinWheelOptions) (history : UserSpinHistory)
    (limits : SpinLimits) (env : SpinEnv) (store : List WheelResult)
    (hreq : validateRequest request = .ok ())
    (hval : options.validateCooldown ≠ some false ∨
      options.validateSpinLimits ≠ some false)
    (hinel : checkCanSpin history limits env.nowMs = false) :
    (execute request options history limits env store).2 = store ∧
    ∃ e, (execute request options history limits env store).1 = .error e ∧
      e.isRateLimit = true := by
  obtain ⟨e, he, hrl⟩ :=
    validateCanSpin_rateLimit history limits env.nowMs hinel
  have hexec : execute request options history limits env store =
      (.error e, store) := by
    unfold execute
    rw [hreq]
    rw [generateWheelSection_eq_spec]
    simp only
    rw [mkDiscountPercentage_section]
    simp only
    rw [if_pos hval, he]
  rw [hexec]
  exact ⟨rfl, e, rfl, hrl⟩

/-- Witness for C3: a caller one millisecond into the default 5-minute
cooldown, default options, empty store. -/
theorem execute_rateLimit_no_save_witness :
    (execute ⟨"s1", none, none, none⟩ {}
        ⟨"s1", [⟨999999⟩], [⟨999999⟩], some 999999, 1⟩ defaultLimits
        ⟨1000000, 0, 1/3, 1/3, 1/3, 1/3, "ABCDEFGHIJKLMNOP"⟩ []).2 = [] ∧
    ∃ e, (execute ⟨"s1", none, none, none⟩ {}
        ⟨"s1", [⟨999999⟩], [⟨999999⟩], some 999999, 1⟩ defaultLimits
        ⟨1000000, 0, 1/3, 1/3, 1/3, 1/3, "ABCDEFGHIJKLMNOP"⟩ []).1 =
      .error e ∧ e.isRateLimit = true :=
  execute_rateLimit_no_save ⟨"s1", none, none, none⟩ {}
    ⟨"s1", [⟨999999⟩], [⟨999999⟩], some 999999, 1⟩ defaultLimits
    ⟨1000000, 0, 1/3, 1/3, 1/3, 1/3, "ABCDEFGHIJKLMNOP"⟩ []
    (by decide) (Or.inl (by decide)) (by decide)

/-- A request that passes `validateRequest` has a nonempty (after trim)
session id. -/
theorem validateRequest_sessionId (request : WheelSpinRequest)
    (h : validateRequest request = .ok ()) :
    ¬(request.sessionId = "" ∨ (jsTrim request.sessionId).length = 0) := by
  unfold validateRequest at h
  by_cases hc : request.sessionId = "" ∨ (jsTrim request.sessionId).length = 0
  · rw [if_pos hc] at h
    simp at h
  · exact hc

/-- The `WheelResult` construction inside `execute` succeeds whenever the
generated id is nonempty and the draws are in `[0, 1)`. -/
theorem mkWheelResult_ok (id sessionId : String) (s : WheelSection)
    (d : ℚ) (nowMs : Int) (uOff uRot uDur : ℚ)
    (hid : ¬(id = "" ∨ (jsTrim id).length = 0))
    (hsess : ¬(sessionId = "" ∨ (jsTrim sessionId).length = 0))
    (ho0 : 0 ≤ uOff) (ho1 : uOff < 1) (hr0 : 0 ≤ uRot) (hr1 : uRot < 1)
    (hd0 : 0 ≤ uDur) (hd1 : uDur < 1) :
    mkWheelResult id sessionId s d (generateWheelAngle s uOff uRot)
        (generateSpinDuration uDur) nowMs =
      .ok ⟨id, sessionId, s, d, generateWheelAngle s uOff uRot,
        generateSpinDuration uDur, nowMs, false, none,
        nowMs + 24 * 60 * 60 * 1000⟩ := by
  have hang := wheelAngle_range s uOff uRot ho0 ho1 hr0 hr1
  have hdur := generateSpinDuration_bounds uDur hd0 hd1
  unfold mkWheelResult
  rw [if_neg hid, if_neg hsess]
  rw [if_neg (by
    push_neg
    constructor
    · linarith [hang.1]
    · linarith [hang.2])]
  rw [if_neg (by
    push_neg
    constructor
    · linarith [hdur.1]
    · linarith [hdur.2])]

/-- C10: with `validateCooldown === false` and
`validateSpinLimits === false`, `execute` skips the eligibility check and
returns (and appends to the store) an award even for a caller whose
history is ineligible — no rate-limit error is raised. -/
theorem skip_validation_always_awards (request : WheelSpinRequest)
    (history : UserSpinHistory) (limits : SpinLimits) (env : SpinEnv)
    (store : List WheelResult)
    (hreq : validateRequest request = .ok ())
    (hid : ¬(env.idStr = "" ∨ (jsTrim env.idStr).length = 0))
    (ho0 : 0 ≤ env.uOffset) (ho1 : env.uOffset < 1)
    (hr0 : 0 ≤ env.uRotations) (hr1 : env.uRotations < 1)
    (hd0 : 0 ≤ env.uDuration) (hd1 : env.uDuration < 1)
    (hinel : checkCanSpin history limits env.nowMs = false) :
    ∃ out r,
      execute request
          { validateCooldown := some false, validateSpinLimits := some false }
          history limits env store = (.ok out, store ++ [r]) := by
  have hsess := validateRequest_sessionId request hreq
  have hmk := mkWheelResult_ok env.idStr request.sessionId
    (wheelSelectSpec env.uSection)
    (((getSectionConfig (wheelSelectSpec env.uSection)).map
      (·.discountPercentage)).getD 0)
    env.nowMs env.uOffset env.uRotations env.uDuration hid hsess
    ho0 ho1 hr0 hr1 hd0 hd1
  refine ⟨?_, ?_, ?_⟩
  rotate_left 2
  unfold execute
  rw [hreq]
  rw [generateWheelSection_eq_spec]
  simp only
  rw [mkDiscountPercentage_section]
  simp only
  rw [if_neg (by simp)]
  rw [hmk]
  exact rfl

/-- Witness for C10: a caller over every cap and inside the cooldown,
with both validation options set to `false`. -/
theorem skip_validation_always_awards_witness :
    ∃ out r,
      execute ⟨"s1", none, none, none⟩
          { validateCooldown := some false, validateSpinLimits := some false }
          ⟨"s1", List.replicate 20 ⟨999999⟩, List.replicate 5 ⟨999999⟩,
            some 999999, 25⟩ defaultLimits
          ⟨1000000, 0, 1/3, 1/3, 1/3, 1/3, "ABCDEFGHIJKLMNOP"⟩ [] =
        (.ok out, [] ++ [r]) :=
  skip_validation_always_awards ⟨"s1", none, none, none⟩
    ⟨"s1", List.replicate 20 ⟨999999⟩, List.replicate 5 ⟨999999⟩,
      some 999999, 25⟩ defaultLimits
    ⟨1000000, 0, 1/3, 1/3, 1/3, 1/3, "ABCDEFGHIJKLMNOP"⟩ []
    (by decide) (by decide) (by norm_num) (by norm_num) (by norm_num)
    (by norm_num) (by norm_num) (by norm_num) (by decide)

/-- C6: on an empty history with the default limits (cooldown 5 min, daily
cap 10, session cap 3), a first spin succeeds, appends exactly one record,
and reports `canSpinAgain = true` with `spinsRemainingToday = 9` — the
post-spin eligibility is recomputed as if the new spin were already in
history. -/
theorem first_spin_succeeds_nine_remaining (env : SpinEnv)
    (store : List WheelResult)
    (hid : ¬(env.idStr = "" ∨ (jsTrim env.idStr).length = 0))
    (ho0 : 0 ≤ env.uOffset) (ho1 : env.uOffset < 1)
    (hr0 : 0 ≤ env.uRotations) (hr1 : env.uRotations < 1)
    (hd0 : 0 ≤ env.uDuration) (hd1 : env.uDuration < 1) :
    ∃ out r,
      execute ⟨"s1", none, none, none⟩ {} ⟨"s1", [], [], none, 0⟩
          defaultLimits env store = (.ok out, store ++ [r]) ∧
      out.canSpinAgain = true ∧ out.spinsRemainingToday = 9 := by
  have hmk := mkWheelResult_ok env.idStr "s1" (wheelSelectSpec env.uSection)
    (((getSectionConfig (wheelSelectSpec env.uSection)).map
      (·.discountPercentage)).getD 0)
    env.nowMs env.uOffset env.uRotations env.uDuration hid (by decide)
    ho0 ho1 hr0 hr1 hd0 hd1
  refine ⟨?_, ?_, ?_, ?_, ?_⟩
  rotate_left 2
  · unfold execute
    rw [show validateRequest ⟨"s1", none, none, none⟩ = .ok () from rfl]
    rw [generateWheelSection_eq_spec]
    simp only
    rw [mkDiscountPercentage_section]
    simp only
    rw [if_pos (by simp : (({} : SpinWheelOptions)).validateCooldown ≠
        some false ∨ (({} : SpinWheelOptions)).validateSpinLimits ≠
        some false)]
    rw [show checkCanSpin ⟨"s1", [], [], none, 0⟩ defaultLimits env.nowMs =
        true from rfl]
    rw [show validateCanSpin true
        (calculateCooldownRemaining ⟨"s1", [], [], none, 0⟩ defaultLimits
          env.nowMs) ⟨"s1", [], [], none, 0⟩ defaultLimits env.nowMs =
        .ok () from rfl]
    rw [hmk]
    exact rfl
  · exact rfl
  · exact rfl

/-- Witness for C6 at concrete draws and a concrete generated id. -/
theorem first_spin_succeeds_nine_remaining_witness :
    ∃ out r,
      execute ⟨"s1", none, none, none⟩ {} ⟨"s1", [], [], none, 0⟩
          defaultLimits ⟨1000000, 0, 1/3, 1/3, 1/3, 1/3, "ABCDEFGHIJKLMNOP"⟩
          [] = (.ok out, [] ++ [r]) ∧
      out.canSpinAgain = true ∧ out.spinsRemainingToday = 9 :=
  first_spin_succeeds_nine_remaining
    ⟨1000000, 0, 1/3, 1/3, 1/3, 1/3, "ABCDEFGHIJKLMNOP"⟩ []
    (by decide) (by norm_num) (by norm_num) (by norm_num) (by norm_num)
    (by norm_num) (by norm_num)

/-! ### Discount-code round trip (C1) -/

/-- A winning 5% result whose generated id begins with a digit — ids from
`generateId(16)` draw uniformly from an alphanumeric charset, so this
shape occurs. -/
def digitIdResult : WheelResult :=
  ⟨"1AAAAAAAXY", "s1", .discount5, 5, 1080, 3000, 0, false, none, 86400000⟩

/-- Counterexample for C1 as stated: the code `INTEL51AAAAAAA0` produced
for a 5% result with id `1AAAAAAAXY` decodes (greedy `INTEL(\d+)`) to 51,
not 5, while still reporting `isValid = true`. -/
theorem discount_code_roundtrip_counterexample :
    digitIdResult.«section» ≠ WheelSection.tryAgain ∧
    digitIdResult.discountPercentage = 5 ∧
    digitIdResult.getDiscountCode = some ("INTEL51AAAAAAA0".toList) ∧
    (redeemWheelDiscount ("INTEL51AAAAAAA0".toList)).isValid = true ∧
    (redeemWheelDiscount ("INTEL51AAAAAAA0".toList)).percentage = some 51 ∧
    (51 : Nat) ≠ 5 := by
  refine ⟨by decide, by decide, by decide, by decide, by decide, by decide⟩

/-! Support lemmas for the amended round-trip statement. -/

theorem digitChar_isDigit (d : Nat) (h : d < 10) :
    isDigitChar (digitChar d) = true := by
  interval_cases d <;> decide

theorem digitChar_toNat (d : Nat) (h : d < 10) :
    (digitChar d).toNat - 48 = d := by
  interval_cases d <;> decide

theorem natDigitsAux_all (fuel n : Nat) :
    (natDigitsAux fuel n).all isDigitChar = true := by
  induction fuel generalizing n with
  | zero => rfl
  | succ fuel ih =>
    by_cases h : n = 0
    · simp [natDigitsAux, h]
    · simp only [natDigitsAux, if_neg h, List.all_append]
      simp [ih (n / 10), digitChar_isDigit (n % 10) (Nat.mod_lt _ (by norm_num))]

theorem digitCharsToNat_append_digit (ds : List Char) (c : Char) :
    digitCharsToNat (ds ++ [c]) = digitCharsToNat ds * 10 + (c.toNat - 48) := by
  unfold digitCharsToNat
  rw [List.foldl_append]
  rfl

theorem natDigitsAux_parse (fuel n : Nat) (h : n ≤ fuel) :
    digitCharsToNat (natDigitsAux fuel n) = n := by
  induction fuel generalizing n with
  | zero =>
    have : n = 0 := Nat.le_zero.mp h
    subst this
    rfl
  | succ fuel ih =>
    by_cases hz : n = 0
    · subst hz
      rfl
    · simp only [natDigitsAux, if_neg hz]
      rw [digitCharsToNat_append_digit]
      rw [ih (n / 10) (by omega)]
      rw [digitChar_toNat (n % 10) (Nat.mod_lt _ (by norm_num))]
      omega

theorem natToDigitChars_parse (n : Nat) :
    digitCharsToNat (natToDigitChars n) = n := by
  by_cases h : n = 0
  · subst h
    rfl
  · simp only [natToDigitChars, if_neg h]
    exact natDigitsAux_parse (n + 1) n (by omega)

theorem natToDigitChars_all (n : Nat) :
    (natToDigitChars n).all isDigitChar = true := by
  by_cases h : n = 0
  · subst h
    rfl
  · simp only [natToDigitChars, if_neg h]
    exact natDigitsAux_all (n + 1) n

theorem natToDigitChars_ne_nil (n : Nat) : natToDigitChars n ≠ [] := by
  by_cases h : n = 0
  · subst h
    decide
  · simp only [natToDigitChars, if_neg h, natDigitsAux, if_neg h]
    simp

theorem natDigitsAux_length (fuel : Nat) :
    ∀ n k, n < 10 ^ k → (natDigitsAux fuel n).length ≤ k := by
  induction fuel with
  | zero =>
    intro n k _
    simp [natDigitsAux]
  | succ fuel ih =>
    intro n k hk
    by_cases hz : n = 0
    · simp [natDigitsAux, hz]
    · simp only [natDigitsAux, if_neg hz, List.length_append,
        List.length_cons, List.length_nil]
      cases k with
      | zero =>
        exfalso
        simp at hk
        omega
      | succ k =>
        have hdiv : n / 10 < 10 ^ k := by
          rw [Nat.div_lt_iff_lt_mul (by norm_num)]
          calc n < 10 ^ (k + 1) := hk
            _ = 10 ^ k * 10 := by ring
        have := ih (n / 10) k hdiv
        omega

theorem natToDigitChars_length_le (n : Nat) (h : n ≤ 100) :
    (natToDigitChars n).length ≤ 3 := by
  by_cases hz : n = 0
  · subst hz
    decide
  · simp only [natToDigitChars, if_neg hz]
    exact natDigitsAux_length (n + 1) n 3 (by omega)

theorem isDigitChar_isUpperAlnum (c : Char) (h : isDigitChar c = true) :
    isUpperAlnum c = true := by
  simp [isUpperAlnum, h]

theorem base36DigitChar_upperAlnum (d : Nat) (h : d < 36) :
    isUpperAlnum (base36DigitChar d) = true := by
  interval_cases d <;> decide

theorem base36Aux_all (fuel n : Nat) :
    (base36Aux fuel n).all isUpperAlnum = true := by
  induction fuel generalizing n with
  | zero => rfl
  | succ fuel ih =>
    by_cases h : n = 0
    · simp [base36Aux, h]
    · simp only [base36Aux, if_neg h, List.all_append]
      simp [ih (n / 36),
        base36DigitChar_upperAlnum (n % 36) (Nat.mod_lt _ (by norm_num))]

theorem base36UpperChars_all (n : Int) (h : 0 ≤ n) :
    (base36UpperChars n).all isUpperAlnum = true := by
  simp only [base36UpperChars, if_neg (not_lt.mpr h)]
  unfold natToBase36Upper
  by_cases hz : n.toNat = 0
  · rw [if_pos hz]
    decide
  · rw [if_neg hz]
    exact base36Aux_all _ _

theorem takeWhile_append_all (p : Char → Bool) (xs ys : List Char)
    (h : xs.all p = true) :
    (xs ++ ys).takeWhile p = xs ++ ys.takeWhile p := by
  induction xs with
  | nil => simp
  | cons a l ih =>
    simp only [List.all_cons, Bool.and_eq_true] at h
    simp [List.takeWhile, h.1, ih h.2]

theorem takeWhile_cons_neg (p : Char → Bool) (c : Char) (l : List Char)
    (h : p c = false) : (c :: l).takeWhile p = [] := by
  simp [List.takeWhile, h]

theorem all_take (p : Char → Bool) (l : List Char) (n : Nat)
    (h : l.all p = true) : (l.take n).all p = true := by
  rw [List.all_eq_true] at h ⊢
  exact fun x hx => h x (List.take_subset n l hx)

/-- `jsNumChars` prints a natural number as its decimal digits. -/
theorem jsNumChars_natCast (p : Nat) :
    jsNumChars ((p : ℚ)) = natToDigitChars p := by
  unfold jsNumChars
  rw [if_pos (Rat.den_natCast p)]
  rw [if_neg (by simp [Rat.num_natCast])]
  rw [Rat.num_natCast, Int.toNat_natCast]

/-- Truncation to 16 characters keeps the 5-character prefix and the
first 11 characters of the payload. -/
theorem take_intel (X : List Char) :
    List.take 16 (['I', 'N', 'T', 'E', 'L'] ++ X) =
      'I' :: 'N' :: 'T' :: 'E' :: 'L' :: List.take 11 X := rfl

/-- C1 (amended): for every winning `WheelResult` whose stored percentage
is a natural number ≤ 100, whose timestamp is nonnegative, and whose
uppercased 8-character id prefix is nonempty, drawn from `[A-Z0-9]` and
does NOT begin with a digit, `redeemWheelDiscount` reports the produced
code valid and recovers exactly the encoded percentage.  When the id
prefix begins with a digit, the greedy `INTEL(\d+)` capture absorbs id
characters into the percentage (see the counterexample), so the claim
holds only under the leading-non-digit condition. -/
theorem discount_code_roundtrip_amended (r : WheelResult) (p : Nat)
    (hsec : r.«section» ≠ WheelSection.tryAgain)
    (hp : r.discountPercentage = (p : ℚ)) (hp100 : p ≤ 100)
    (hts : 0 ≤ r.timestampMs)
    (hshort : ((r.id.toList.take 8).map Char.toUpper) ≠ [])
    (hall : ((r.id.toList.take 8).map Char.toUpper).all isUpperAlnum = true)
    (hhead : ∀ ch, ((r.id.toList.take 8).map Char.toUpper).head? = some ch →
      isDigitChar ch = false) :
    ∃ code, r.getDiscountCode = some code ∧
      (redeemWheelDiscount code).isValid = true ∧
      (redeemWheelDiscount code).percentage = some p := by
  obtain ⟨c, s', hs⟩ := List.exists_cons_of_ne_nil hshort
  have hcnd : isDigitChar c = false := hhead c (by rw [hs]; rfl)
  rw [hs] at hall
  simp only [List.all_cons, Bool.and_eq_true] at hall
  have htall : (base36UpperChars r.timestampMs).all isUpperAlnum = true :=
    base36UpperChars_all _ hts
  have hdpall := natToDigitChars_all p
  have hdplen := natToDigitChars_length_le p hp100
  obtain ⟨d, dp', hdp⟩ :=
    List.exists_cons_of_ne_nil (natToDigitChars_ne_nil p)
  -- the truncated code in explicit head-normal form
  obtain ⟨k', hk'⟩ : ∃ k', 11 - (natToDigitChars p).length = k' + 1 :=
    ⟨10 - (natToDigitChars p).length, by omega⟩
  have hcode : List.take 16 (['I', 'N', 'T', 'E', 'L'] ++
        jsNumChars r.discountPercentage ++
        (r.id.toList.take 8).map Char.toUpper ++
        base36UpperChars r.timestampMs) =
      'I' :: 'N' :: 'T' :: 'E' :: 'L' :: (natToDigitChars p ++
        c :: List.take k' (s' ++ base36UpperChars r.timestampMs)) := by
    rw [hp, jsNumChars_natCast, hs]
    rw [List.append_assoc, List.append_assoc]
    rw [take_intel]
    rw [List.take_append_eq_append_take]
    rw [List.take_of_length_le (by omega)]
    rw [hk']
    rw [List.cons_append, List.take_succ_cons]
  have hrest : (List.take k' (s' ++ base36UpperChars r.timestampMs)).all
      isUpperAlnum = true := by
    apply all_take
    rw [List.all_append]
    simp [hall.2, htall]
  -- the format regex accepts the code
  have hfmt : matchesCodeFormat ('I' :: 'N' :: 'T' :: 'E' :: 'L' ::
      (natToDigitChars p ++
        c :: List.take k' (s' ++ base36UpperChars r.timestampMs))) = true := by
    rw [hdp]
    rw [hdp] at hdpall
    simp only [List.all_cons, Bool.and_eq_true] at hdpall
    obtain ⟨c2, rest2, hM⟩ := List.exists_cons_of_ne_nil
      (by simp : dp' ++ c :: List.take k' (s' ++ base36UpperChars
        r.timestampMs) ≠ [])
    have hMall : (dp' ++ c :: List.take k' (s' ++ base36UpperChars
        r.timestampMs)).all isUpperAlnum = true := by
      rw [List.all_append]
      have hdp'u : dp'.all isUpperAlnum = true := by
        rw [List.all_eq_true] at hdpall ⊢
        intro x hx
        exact isDigitChar_isUpperAlnum x (hdpall.2 x hx)
      simp [hdp'u, isDigitChar_isUpperAlnum c, hall.1, hrest]
    rw [hM] at hMall
    simp only [List.all_cons, Bool.and_eq_true] at hMall
    rw [List.cons_append, hM]
    simp [matchesCodeFormat, hdpall.1, hMall.1, hMall.2]
  -- the decoder recovers exactly the encoded digits
  have hext : extractCodePercentage ('I' :: 'N' :: 'T' :: 'E' :: 'L' ::
      (natToDigitChars p ++
        c :: List.take k' (s' ++ base36UpperChars r.timestampMs))) =
      some p := by
    simp only [extractCodePercentage]
    rw [takeWhile_append_all _ _ _ hdpall]
    rw [takeWhile_cons_neg _ _ _ hcnd]
    rw [List.append_nil]
    rw [if_neg (natToDigitChars_ne_nil p)]
    rw [natToDigitChars_parse]
  refine ⟨List.take 16 (['I', 'N', 'T', 'E', 'L'] ++
      jsNumChars r.discountPercentage ++
      (r.id.toList.take 8).map Char.toUpper ++
      base36UpperChars r.timestampMs), ?_, ?_, ?_⟩
  · unfold WheelResult.getDiscountCode
    rw [if_neg (by simp [WheelResult.isWinningResult, hsec])]
  · unfold redeemWheelDiscount
    rw [hcode, hfmt]
    simp [hext]
  · unfold redeemWheelDiscount
    rw [hcode, hfmt]
    simp [hext]

/-- Witness for C1 (amended): a 10% result with id `ABCDEFGHIJKLMNOP`
and timestamp 0. -/
theorem discount_code_roundtrip_amended_witness :
    ∃ code, WheelResult.getDiscountCode
        ⟨"ABCDEFGHIJKLMNOP", "s1", .discount10, 10, 1080, 3000, 0, false,
          none, 86400000⟩ = some code ∧
      (redeemWheelDiscount code).isValid = true ∧
      (redeemWheelDiscount code).percentage = some 10 :=
  discount_code_roundtrip_amended
    ⟨"ABCDEFGHIJKLMNOP", "s1", .discount10, 10, 1080, 3000, 0, false,
      none, 86400000⟩ 10
    (by decide) (by norm_num) (by norm_num) (by norm_num)
    (by decide) (by decide) (by decide)

end Intelcobro
